import Mathlib

/-!
Verification of the mongodb-nats-connector repository.

This file gives a shallow embedding, in Lean 4, of the parts of the Go
source that the checked claims are about:

* the inner CONSUME loop and the outer resume loop of
  `DefaultClient.WatchCollection` (internal/mongo, latest revision:
  src/unnamed/part_012, second document),
* `DefaultClient.CreateCollection` (same file),
* the option validation `WithCollection` / `WithTokensCollCapped` of
  pkg/connector/connector.go (second document),
* the `validateAndSetDefaults` configuration pass of
  pkg/connector/connector.go (third document, the revision the claim cites).

External collaborators (the MongoDB driver, the NATS client, contexts) are
modelled by their documented contracts: driver calls that can fail are
driven by explicit outcome flags in a per-iteration script, and a cancelled
context makes a driver call fail and makes the change stream deliver no
further events.  Machine integers are modelled as `Int`; Go strings as
Lean `String` (with ASCII case folding for `strings.EqualFold` and
`strings.ToUpper`).
-/

/-! ## BSON documents and relaxed extended JSON

A change event (`cs.Current` in the Go code) is a BSON document.  Only
string fields, integer fields and nested documents matter to the claims.
`bson.MarshalExtJSON(v, false, false)` serialises a document to relaxed
extended JSON, preserving its structure.
-/

/-- A BSON value: a string, an integer, or a nested document given as an
ordered field list (BSON documents are ordered and may repeat keys; driver
lookups return the first match). -/
inductive Bson where
  | str (s : String)
  | int (n : Int)
  | doc (elems : List (String × Bson))

/-- A BSON document: an ordered list of key/value pairs, as in `bson.Raw`. -/
abbrev BsonDoc := List (String × Bson)

/-- A relaxed extended JSON value, the output form of
`bson.MarshalExtJSON(v, false, false)`. -/
inductive Json where
  | str (s : String)
  | num (n : Int)
  | obj (elems : List (String × Json))

/-- First-match lookup of a key in a BSON document, as the driver's
`Lookup` does on `bson.Raw`. -/
def bsonGet : BsonDoc → String → Option Bson
  | [], _ => none
  | (k, v) :: rest, key => if k = key then some v else bsonGet rest key

/-- `raw.Lookup(k1, k2).StringValue()`: follow the two-element path and
return the string found there, if the path exists and holds a string. -/
def bsonLookup2 (e : BsonDoc) (k1 k2 : String) : Option String :=
  match bsonGet e k1 with
  | some (Bson.doc d) =>
    match bsonGet d k2 with
    | some (Bson.str s) => some s
    | _ => none
  | _ => none

/-- `raw.Lookup(k).StringValue()`: the string at a top-level key. -/
def bsonLookupStr (e : BsonDoc) (k : String) : Option String :=
  match bsonGet e k with
  | some (Bson.str s) => some s
  | _ => none

mutual

/-- `bson.MarshalExtJSON(v, false, false)` on a single BSON value:
structure-preserving translation to relaxed extended JSON. -/
def marshalValue : Bson → Json
  | Bson.str s => Json.str s
  | Bson.int n => Json.num n
  | Bson.doc d => Json.obj (marshalDoc d)

/-- `bson.MarshalExtJSON` on a document: field-by-field translation. -/
def marshalDoc : List (String × Bson) → List (String × Json)
  | [] => []
  | (k, v) :: rest => (k, marshalValue v) :: marshalDoc rest

end

/-- First-match lookup of a key in a JSON object field list. -/
def jsonGet : List (String × Json) → String → Option Json
  | [], _ => none
  | (k, v) :: rest, key => if k = key then some v else jsonGet rest key

/-- The string found in a JSON value at the two-element path `k1.k2`, if
the value is an object, the path exists, and it holds a string. -/
def jsonLookup2 (j : Json) (k1 k2 : String) : Option String :=
  match j with
  | Json.obj d =>
    match jsonGet d k1 with
    | some (Json.obj d2) =>
      match jsonGet d2 k2 with
      | some (Json.str s) => some s
      | _ => none
    | _ => none
  | _ => none

/-! ## Change events

`WatchCollection` reads two fields of each event:
`cs.Current.Lookup("_id", "_data").StringValue()` (the resume token) and
`cs.Current.Lookup("operationType").StringValue()`.
-/

/-- The resume token of a change event: the string at path `_id._data`
(empty when absent, a case that does not occur for real driver events). -/
def eventResumeToken (e : BsonDoc) : String :=
  (bsonLookup2 e "_id" "_data").getD ""

/-- The operation type of a change event: the string at `operationType`. -/
def eventOperationType (e : BsonDoc) : String :=
  (bsonLookupStr e "operationType").getD ""

/-- Membership in `publishableOperationTypes`, the set with exactly the
keys insert, update, replace and delete (internal/mongo, part_012). -/
def isPublishable (op : String) : Bool :=
  op == "insert" || op == "update" || op == "replace" || op == "delete"

/-- A message handed to the change event handler (and, through it, to
`natsClient.Publish`): subject, NATS message id, and serialised body. -/
structure Msg where
  subj : String
  msgId : String
  body : Json

/-- The one message built for a publishable event: subject
`StreamName + "." + operationType`, id the resume token of the event, body
the event marshalled to relaxed extended JSON. -/
def mkMsg (streamName : String) (e : BsonDoc) : Msg :=
  { subj := streamName ++ "." ++ eventOperationType e
    msgId := eventResumeToken e
    body := Json.obj (marshalDoc e) }

/-! ## The inner CONSUME loop

For each event the code extracts token and operation, marshals the event
(a marshal failure returns an error from `WatchCollection`), skips
non-publishable operations (`invalidate` also clears `resume` and breaks),
publishes, then inserts the resume token; a publish failure or an insert
failure breaks the inner loop.  The outcome flags model whether each of
these driver or sink calls succeeds.
-/

/-- Outcomes of the three fallible calls made while handling one event:
`bson.MarshalExtJSON`, the change event handler (NATS publish), and
`resumeTokensColl.InsertOne`. -/
structure StepOutcome where
  marshalOk : Bool
  publishOk : Bool
  insertOk : Bool
deriving DecidableEq

/-- How the inner `for cs.Next(ctx)` loop ended. -/
inductive InnerExit where
  /-- `cs.Next` returned false: stream drained or context cancelled. -/
  | drained
  /-- an invalidate event set `resume := false` and broke the loop. -/
  | invalidated
  /-- the change event handler returned an error and the loop broke. -/
  | publishFailed
  /-- `InsertOne` of the resume token failed and the loop broke. -/
  | insertFailed
  /-- `MarshalExtJSON` failed: `WatchCollection` returns an error. -/
  | marshalFatal
deriving DecidableEq

/-- What one run of the inner loop produced: the messages published, the
token values inserted into the resume tokens collection (in order), and
how the loop ended. -/
structure InnerOut where
  newPublished : List Msg
  newTokenValues : List String
  exit : InnerExit

/-- The inner CONSUME loop of `DefaultClient.WatchCollection`
(internal/mongo, part_012 lines 275 to 309), over the list of events the
change stream delivers before `cs.Next` returns false. -/
def consumeEvents (streamName : String) :
    List (BsonDoc × StepOutcome) → InnerOut
  | [] => ⟨[], [], InnerExit.drained⟩
  | (e, o) :: rest =>
    let tok := eventResumeToken e
    let op := eventOperationType e
    if o.marshalOk = false then ⟨[], [], InnerExit.marshalFatal⟩
    else if isPublishable op = false then
      if op = "invalidate" then ⟨[], [], InnerExit.invalidated⟩
      else consumeEvents streamName rest
    else
      let msg := mkMsg streamName e
      if o.publishOk = false then ⟨[], [], InnerExit.publishFailed⟩
      else if o.insertOk = false then ⟨[msg], [], InnerExit.insertFailed⟩
      else
        let r := consumeEvents streamName rest
        ⟨msg :: r.newPublished, tok :: r.newTokenValues, r.exit⟩

/-! ## The resume tokens collection and READ-CURSOR

The cursor collection is modelled as the list of its records in natural
(insertion) order.  Uncapped collections carry a synthetic `_id` assigned
at insertion; the connector is the only writer, so the ids are strictly
increasing in insertion order, which the model realises by assigning them
from a counter.  `FindOne` with a sort option returns the first document
of the sorted collection, or no document when the collection is empty
(`mongo.ErrNoDocuments`).
-/

/-- One persisted resume record, `resumeToken` in the source: the stored
document has a single field `value`; `id` is the `_id` the database
assigned at insertion. -/
structure TokenRecord where
  id : Nat
  value : String
deriving DecidableEq

/-- The two sort options `WatchCollection` uses for the cursor lookup. -/
inductive SortOrder where
  /-- `$natural: -1`, last physically inserted record first. -/
  | naturalDesc
  /-- `_id: -1`, highest id first. -/
  | idDesc
deriving DecidableEq

/-- Insert a record into a list kept in descending id order. -/
def insertDescById (r : TokenRecord) : List TokenRecord → List TokenRecord
  | [] => [r]
  | x :: xs => if x.id ≤ r.id then r :: x :: xs else x :: insertDescById r xs

/-- Sort records by `_id` descending. -/
def sortDescById : List TokenRecord → List TokenRecord
  | [] => []
  | x :: xs => insertDescById x (sortDescById xs)

/-- The collection as the given sort order presents it: natural descending
reverses insertion order; id descending sorts by id, highest first. -/
def sortRecords : SortOrder → List TokenRecord → List TokenRecord
  | SortOrder.naturalDesc, coll => coll.reverse
  | SortOrder.idDesc, coll => sortDescById coll

/-- `FindOne(ctx, bson.D{}, findOneOpts)`: the first record under the
requested sort, or none when the collection is empty. -/
def findOneSorted (s : SortOrder) (coll : List TokenRecord) : Option TokenRecord :=
  (sortRecords s coll).head?

/-- The sort option chosen in READ-CURSOR: natural descending for a capped
cursor collection, `_id` descending otherwise (part_012 lines 245 to 252). -/
def sortFor (capped : Bool) : SortOrder :=
  if capped then SortOrder.naturalDesc else SortOrder.idDesc

/-- The `Value` of the decoded `lastResumeToken`: the value of the fetched
record, or the zero value when `FindOne` reported `ErrNoDocuments`. -/
def lastTokenValue (capped : Bool) (tokens : List TokenRecord) : String :=
  ((findOneSorted (sortFor capped) tokens).map TokenRecord.value).getD ""

/-- The resume-after point given to `Watch`: set only when the decoded
token value is non-empty (part_012 lines 264 to 267). -/
def resumeAfterFor (capped : Bool) (tokens : List TokenRecord) : Option String :=
  if lastTokenValue capped tokens = "" then none
  else some (lastTokenValue capped tokens)

/-! ## The outer loop of WatchCollection

One outer iteration: READ-CURSOR, OPEN-STREAM, CONSUME, CLOSE-STREAM.
Each iteration is driven by a script of driver outcomes: whether the
cursor fetch succeeded (a cancelled context or a decode failure makes it
fail with an error other than `ErrNoDocuments`), whether `Watch` opened
the stream, the events `cs.Next` delivered before returning false (a
cancelled context delivers none), and whether `cs.Close` succeeded.
The loop runs `for resume`, with `resume` cleared only by an invalidate
event; the scripts list is finite, so a run that is still looping when
the scripts are exhausted is reported as `running`.
-/

/-- Driver outcomes for one outer iteration of `WatchCollection`. -/
structure IterationScript where
  /-- `FindOne(...).Decode` succeeded or reported `ErrNoDocuments`; false
  models a network or decode failure, or a cancelled context. -/
  fetchOk : Bool
  /-- `watchedColl.Watch` succeeded. -/
  watchOk : Bool
  /-- the events the change stream delivers before `cs.Next` returns
  false, each with the outcomes of the calls made while handling it. -/
  events : List (BsonDoc × StepOutcome)
  /-- `cs.Close(context.Background())` succeeded. -/
  closeOk : Bool

/-- The errors `WatchCollection` can return. -/
inductive GoError where
  /-- could not fetch or decode resume token -/
  | fetchResumeTokenFailed
  /-- could not watch mongo collection -/
  | watchFailed
  /-- could not marshal mongo change event from bson -/
  | marshalFailed
  /-- could not close change stream -/
  | closeFailed
deriving DecidableEq

/-- The observable result of a `WatchCollection` run over finitely many
scripted iterations. -/
inductive RunResult where
  /-- returned nil. -/
  | ok
  /-- returned the given error. -/
  | err (e : GoError)
  /-- still looping after the scripted iterations were used up. -/
  | running
deriving DecidableEq

/-- The observable state of a run: the cursor collection records (with the
next `_id` the database will assign), every message published so far, and
the resume-after argument of every `Watch` call made so far. -/
structure LoopState where
  tokens : List TokenRecord
  nextId : Nat
  published : List Msg
  opened : List (Option String)

/-- `InsertOne` of each token value in order: append a record carrying the
next synthetic id. -/
def appendTokens (tokens : List TokenRecord) (nextId : Nat) :
    List String → List TokenRecord × Nat
  | [] => (tokens, nextId)
  | v :: vs => appendTokens (tokens ++ [⟨nextId, v⟩]) (nextId + 1) vs

/-- The state reached after the READ-CURSOR, OPEN-STREAM and CONSUME
steps of one outer iteration: the resume-after argument of the `Watch`
call is recorded, the messages the inner loop published are appended, and
the token values it inserted are appended to the cursor collection with
fresh synthetic ids. -/
def iterState (capped : Bool) (streamName : String) (it : IterationScript)
    (st : LoopState) : LoopState :=
  let st1 : LoopState :=
    { st with opened := st.opened ++ [resumeAfterFor capped st.tokens] }
  let out := consumeEvents streamName it.events
  let tn := appendTokens st1.tokens st1.nextId out.newTokenValues
  { st1 with
    tokens := tn.1
    nextId := tn.2
    published := st1.published ++ out.newPublished }

/-- `DefaultClient.WatchCollection` (part_012 lines 235 to 318) over a
finite list of scripted outer iterations.  Per iteration: a fetch failure
other than `ErrNoDocuments` returns an error; otherwise the resume-after
point is computed from the cursor collection and recorded; a `Watch`
failure returns an error; the inner loop runs over the delivered events;
a marshal failure returns an error without closing the stream; a close
failure returns an error; an invalidate exit clears `resume`, ending the
loop with a nil return; any other inner exit loops again. -/
def watchCollection (capped : Bool) (streamName : String) :
    List IterationScript → LoopState → RunResult × LoopState
  | [], st => (RunResult.running, st)
  | it :: rest, st =>
    if it.fetchOk = false then (RunResult.err GoError.fetchResumeTokenFailed, st)
    else
      let st1 : LoopState :=
        { st with opened := st.opened ++ [resumeAfterFor capped st.tokens] }
      if it.watchOk = false then (RunResult.err GoError.watchFailed, st1)
      else
        let out := consumeEvents streamName it.events
        let st2 := iterState capped streamName it st
        if out.exit = InnerExit.marshalFatal then
          (RunResult.err GoError.marshalFailed, st2)
        else if it.closeOk = false then (RunResult.err GoError.closeFailed, st2)
        else if out.exit = InnerExit.invalidated then (RunResult.ok, st2)
        else watchCollection capped streamName rest st2

/-! ## The supervisor's error group

`Connector.Run` launches one replication task per binding inside an
`errgroup`; the group's context is cancelled, stopping the other tasks,
exactly when some task returns a non-nil error.  A task that returns nil
leaves the rest of the group running. -/

/-- Whether the group of replication tasks is cancelled, given the results
the tasks return: true exactly when some task returned a non-nil error
(`errgroup.WithContext` semantics as used by `Connector.Run`). -/
def groupCancelled (results : List RunResult) : Bool :=
  results.any fun r =>
    match r with
    | RunResult.err _ => true
    | _ => false

/-! ## DefaultClient.CreateCollection

The adapter lists collections with the requested name, creates the
collection (with capped options when asked) only when the name is absent,
and then, when pre/post-images are requested, runs the `collMod` command;
a `collMod` failure is logged as a warning and the call still succeeds
(part_012 lines 204 to 233).
-/

/-- What the database knows about one collection: its capped flag and
size, and whether pre/post-image capture has been enabled on it. -/
structure CollInfo where
  capped : Bool
  sizeInBytes : Int
  prePostImagesEnabled : Bool
deriving DecidableEq

/-- One database: collection names with their parameters, in creation
order. -/
abbrev DbState := List (String × CollInfo)

/-- `CreateCollectionOptions` of internal/mongo. -/
structure CreateCollectionOptions where
  dbName : String
  collName : String
  capped : Bool
  sizeInBytes : Int
  changeStreamPreAndPostImages : Bool

/-- Outcomes of the driver calls `CreateCollection` makes:
`ListCollectionNames`, `CreateCollection`, and the `collMod` run command. -/
structure CreateOutcomes where
  listOk : Bool
  createOk : Bool
  collModOk : Bool

/-- The commands the adapter can issue against the database, recorded as a
trace so that absence of a mutation is observable. -/
inductive MongoCmd where
  | listNames (name : String)
  | create (name : String) (capped : Bool) (sizeInBytes : Int)
  | collMod (name : String)
deriving DecidableEq

/-- The errors `DefaultClient.CreateCollection` can return. -/
inductive CreateErr where
  /-- could not list mongo collection names -/
  | listNamesFailed
  /-- could not create mongo collection -/
  | createFailed
deriving DecidableEq

/-- `db.ListCollectionNames(ctx, bson.D{Key: "name", Value: collName})`:
the stored names matching the filter. -/
def listCollectionNames (st : DbState) (name : String) : List String :=
  (st.filter fun p => p.1 = name).map Prod.fst

/-- Effect of a successful `collMod ... changeStreamPreAndPostImages
enabled: true` on the database: the named collection gets the flag; its
other parameters are untouched. -/
def setPrePostImages (st : DbState) (name : String) : DbState :=
  st.map fun p =>
    if p.1 = name then (p.1, { p.2 with prePostImagesEnabled := true }) else p

/-- The pre/post-image enabling step at the end of `CreateCollection`:
issued only when requested; on failure the adapter logs a warning and
still returns nil. -/
def runCollModStep (oc : CreateOutcomes) (opts : CreateCollectionOptions)
    (st : DbState) (cmds : List MongoCmd) :
    DbState × List MongoCmd × Except CreateErr Unit :=
  if opts.changeStreamPreAndPostImages = false then (st, cmds, Except.ok ())
  else if oc.collModOk then
    (setPrePostImages st opts.collName,
      cmds ++ [MongoCmd.collMod opts.collName], Except.ok ())
  else (st, cmds ++ [MongoCmd.collMod opts.collName], Except.ok ())

/-- `DefaultClient.CreateCollection` (part_012 lines 204 to 233): list the
matching names; when none match, create the collection, capped with the
requested size when `Capped` is set; then run the pre/post-image step.
Returns the updated database, the issued command trace, and the result. -/
def createCollection (oc : CreateOutcomes) (opts : CreateCollectionOptions)
    (st : DbState) : DbState × List MongoCmd × Except CreateErr Unit :=
  let cmds0 := [MongoCmd.listNames opts.collName]
  if oc.listOk = false then (st, cmds0, Except.error CreateErr.listNamesFailed)
  else if (listCollectionNames st opts.collName).isEmpty then
    let size := if opts.capped then opts.sizeInBytes else 0
    let cmds1 := cmds0 ++ [MongoCmd.create opts.collName opts.capped size]
    if oc.createOk = false then (st, cmds1, Except.error CreateErr.createFailed)
    else
      let st1 := st ++ [(opts.collName, ⟨opts.capped, size, false⟩)]
      runCollModStep oc opts st1 cmds1
  else runCollModStep oc opts st cmds0

/-! ## Connector options (pkg/connector, current revision)

`WithCollection(dbName, collName, opts...)` validates the names, builds a
collection configuration from defaults, applies the collection options in
order (each may fail), and finally rejects a configuration whose source
and cursor collection coincide under `strings.EqualFold`.  Case folding is
modelled per character (faithful on ASCII names).
-/

/-- `strings.ToUpper`, modelled per character. -/
def goToUpper (s : String) : String :=
  String.mk (s.data.map Char.toUpper)

/-- `strings.ToLower`, modelled per character. -/
def goToLower (s : String) : String :=
  String.mk (s.data.map Char.toLower)

/-- `strings.EqualFold`, modelled as case-insensitive equality by
per-character folding. -/
def equalFold (a b : String) : Bool :=
  goToLower a == goToLower b

/-- The `collection` struct of pkg/connector/connector.go. -/
structure Collection where
  dbName : String
  collName : String
  changeStreamPreAndPostImages : Bool
  tokensDbName : String
  tokensCollName : String
  tokensCollCapped : Bool
  tokensCollSizeInBytes : Int
  streamName : String
deriving DecidableEq

/-- The validation errors of pkg/connector/connector.go. -/
inductive ConnErr where
  | errDbNameMissing
  | errCollNameMissing
  | errInvalidCollSizeInBytes
  | errInvalidDbAndCollNames
deriving DecidableEq

/-- The `CollectionOption` values of pkg/connector/connector.go. -/
inductive CollectionOption where
  | withChangeStreamPreAndPostImages
  | withTokensDbName (tokensDbName : String)
  | withTokensCollName (tokensCollName : String)
  | withTokensCollCapped (collSizeInBytes : Int)
  | withStreamName (streamName : String)
deriving DecidableEq

/-- The collection configuration `WithCollection` starts from: defaults
plus the two mandatory names (connector.go lines 652 to 661). -/
def initialCollection (dbName collName : String) : Collection :=
  { dbName := dbName
    collName := collName
    changeStreamPreAndPostImages := false
    tokensDbName := "resume-tokens"
    tokensCollName := collName
    tokensCollCapped := false
    tokensCollSizeInBytes := 0
    streamName := goToUpper collName }

/-- One collection option applied to a collection configuration.  String
options only overwrite when non-empty; `WithTokensCollCapped` rejects a
non-positive size and otherwise sets the capped flag and the size
(connector.go lines 693 to 744). -/
def applyCollectionOption (c : Collection) :
    CollectionOption → Except ConnErr Collection
  | CollectionOption.withChangeStreamPreAndPostImages =>
    Except.ok { c with changeStreamPreAndPostImages := true }
  | CollectionOption.withTokensDbName s =>
    Except.ok (if s = "" then c else { c with tokensDbName := s })
  | CollectionOption.withTokensCollName s =>
    Except.ok (if s = "" then c else { c with tokensCollName := s })
  | CollectionOption.withTokensCollCapped n =>
    if n ≤ 0 then Except.error ConnErr.errInvalidCollSizeInBytes
    else Except.ok { c with tokensCollCapped := true, tokensCollSizeInBytes := n }
  | CollectionOption.withStreamName s =>
    Except.ok (if s = "" then c else { c with streamName := s })

/-- The option loop of `WithCollection`: apply each option in order,
stopping at the first error. -/
def applyCollectionOptions (c : Collection) :
    List CollectionOption → Except ConnErr Collection
  | [] => Except.ok c
  | opt :: rest =>
    match applyCollectionOption c opt with
    | Except.error e => Except.error e
    | Except.ok c1 => applyCollectionOptions c1 rest

/-- `WithCollection` (connector.go lines 644 to 674): reject an empty
`dbName` or `collName`, apply the options, and reject a configuration
whose `(dbName, collName)` equals `(tokensDbName, tokensCollName)` under
`strings.EqualFold`. -/
def withCollection (dbName collName : String) (opts : List CollectionOption) :
    Except ConnErr Collection :=
  if dbName = "" then Except.error ConnErr.errDbNameMissing
  else if collName = "" then Except.error ConnErr.errCollNameMissing
  else
    match applyCollectionOptions (initialCollection dbName collName) opts with
    | Except.error e => Except.error e
    | Except.ok c =>
      if equalFold c.dbName c.tokensDbName && equalFold c.collName c.tokensCollName
      then Except.error ConnErr.errInvalidDbAndCollNames
      else Except.ok c

/-! ## validateAndSetDefaults (pkg/connector, configuration revision)

The claimed default-filling step is the `validateAndSetDefaults` of the
configuration-based revision (connector.go lines 911 to 965): environment
variables overwrite the four top-level fields whenever they are set, and
each collection is validated and then completed with defaults, each
default filled only when the field is absent.  The Go code mutates the
configuration in place and stops at the first invalid collection, leaving
the earlier collections mutated; the model returns the resulting tree
together with the optional error.
-/

/-- The `config.Collection` tree: optional fields are pointers in Go,
absent when nil (booleans and the size) or when empty (strings). -/
structure CollectionCfg where
  dbName : String
  collName : String
  changeStreamPreAndPostImages : Option Bool
  tokensDbName : String
  tokensCollName : String
  tokensCollCapped : Option Bool
  tokensCollSizeInBytes : Option Int
  streamName : String
deriving DecidableEq

/-- The connector-level configuration tree. -/
structure Config where
  logLevel : String
  mongoUri : String
  natsUrl : String
  serverAddr : String
  collections : List CollectionCfg
deriving DecidableEq

/-- The environment: each field is the value of the corresponding
variable when `os.LookupEnv` finds it. -/
structure Env where
  logLevel : Option String
  mongoUri : Option String
  natsUrl : Option String
  serverAddr : Option String

/-- The four unconditional environment overrides at the top of
`validateAndSetDefaults` (connector.go lines 912 to 926). -/
def applyEnvOverrides (env : Env) (cfg : Config) : Config :=
  { cfg with
    logLevel := env.logLevel.getD cfg.logLevel
    mongoUri := env.mongoUri.getD cfg.mongoUri
    natsUrl := env.natsUrl.getD cfg.natsUrl
    serverAddr := env.serverAddr.getD cfg.serverAddr }

/-- The default-filling half of the per-collection body (connector.go
lines 939 to 961): each default only fills an absent field.  The defaults
of this revision are pre/post-images false, tokens database
`resume-tokens`, tokens collection the collection name, capped true, size
4096 bytes, stream the uppercase collection name.  The Go code fills the
fields one after another; no default reads a field that another default
fills (both defaults that read a field read `collName`, which is never
filled), so the simultaneous update below is the same function. -/
def setCollDefaults (c : CollectionCfg) : CollectionCfg :=
  { c with
    changeStreamPreAndPostImages :=
      if c.changeStreamPreAndPostImages = none then some false
      else c.changeStreamPreAndPostImages
    tokensDbName :=
      if c.tokensDbName = "" then "resume-tokens" else c.tokensDbName
    tokensCollName :=
      if c.tokensCollName = "" then c.collName else c.tokensCollName
    tokensCollCapped :=
      if c.tokensCollCapped = none then some true else c.tokensCollCapped
    tokensCollSizeInBytes :=
      if c.tokensCollSizeInBytes = none then some 4096
      else c.tokensCollSizeInBytes
    streamName :=
      if c.streamName = "" then goToUpper c.collName else c.streamName }

/-- The per-collection body of the loop in `validateAndSetDefaults`:
validation first (returning the collection unmutated on error), then the
defaults. -/
def processColl (c : CollectionCfg) : CollectionCfg × Option ConnErr :=
  if c.dbName = "" then (c, some ConnErr.errDbNameMissing)
  else if c.collName = "" then (c, some ConnErr.errCollNameMissing)
  else if equalFold c.dbName c.tokensDbName && equalFold c.collName c.tokensCollName
  then (c, some ConnErr.errInvalidDbAndCollNames)
  else (setCollDefaults c, none)

/-- The loop over the collections: process each in order; on the first
error, stop, keeping the collections already processed and leaving the
rest untouched (in-place mutation semantics of the Go loop). -/
def processColls : List CollectionCfg → List CollectionCfg × Option ConnErr
  | [] => ([], none)
  | c :: cs =>
    match processColl c with
    | (c1, some e) => (c1 :: cs, some e)
    | (c1, none) =>
      let r := processColls cs
      (c1 :: r.1, r.2)

/-- `validateAndSetDefaults` (connector.go lines 911 to 965): environment
overrides followed by the per-collection validation and defaults; returns
the resulting configuration tree and the optional error. -/
def validateAndSetDefaults (env : Env) (cfg : Config) : Config × Option ConnErr :=
  let cfg1 := applyEnvOverrides env cfg
  let r := processColls cfg1.collections
  ({ cfg1 with collections := r.1 }, r.2)

/-! ## Remaining definitions used by the statements -/

/-- Records in descending id order (the shape `sortDescById` produces). -/
def SortedDescById (l : List TokenRecord) : Prop :=
  l.Pairwise fun a b => b.id ≤ a.id

/-- A sample insert change event with the given resume token, shaped like
the events the change stream delivers. -/
def sampleInsertEvent (tok : String) : BsonDoc :=
  [("_id", Bson.doc [("_data", Bson.str tok)]),
   ("operationType", Bson.str "insert"),
   ("fullDocument", Bson.doc [("message", Bson.str "hi")])]

/-- A sample non-publishable, non-invalidate change event (a drop). -/
def sampleDropEvent : BsonDoc :=
  [("_id", Bson.doc [("_data", Bson.str "tokD")]),
   ("operationType", Bson.str "drop")]

/-- A sample invalidate change event. -/
def sampleInvalidateEvent : BsonDoc :=
  [("_id", Bson.doc [("_data", Bson.str "tokI")]),
   ("operationType", Bson.str "invalidate")]

/-! ## Helper lemmas -/

/-- The message id of the built message is the resume token of its event. -/
theorem mkMsg_msgId (s : String) (e : BsonDoc) :
    (mkMsg s e).msgId = eventResumeToken e := rfl

/-- In any inner-loop run, the inserted token values are a front segment
of the ids of the published messages, and at most one published message
is missing its token (the one whose insert failed). -/
theorem consumeEvents_tokens_published (s : String) :
    ∀ evs : List (BsonDoc × StepOutcome),
      ∃ t, (consumeEvents s evs).newTokenValues ++ t =
          (consumeEvents s evs).newPublished.map Msg.msgId ∧ t.length ≤ 1
  | [] => ⟨[], rfl, by simp⟩
  | (e, o) :: rest => by
    by_cases hm : o.marshalOk = false
    · exact ⟨[], by simp only [consumeEvents, if_pos hm]; rfl, by simp⟩
    · by_cases hp : isPublishable (eventOperationType e) = false
      · by_cases hi : eventOperationType e = "invalidate"
        · exact ⟨[], by simp only [consumeEvents, if_neg hm, if_pos hp, if_pos hi]; rfl,
            by simp⟩
        · have ih := consumeEvents_tokens_published s rest
          simpa only [consumeEvents, if_neg hm, if_pos hp, if_neg hi] using ih
      · by_cases hpub : o.publishOk = false
        · exact ⟨[], by simp only [consumeEvents, if_neg hm, if_neg hp, if_pos hpub]; rfl,
            by simp⟩
        · by_cases hins : o.insertOk = false
          · refine ⟨[(mkMsg s e).msgId], ?_, by simp⟩
            simp only [consumeEvents, if_neg hm, if_neg hp, if_neg hpub, if_pos hins]
            rfl
          · obtain ⟨t, ht, hl⟩ := consumeEvents_tokens_published s rest
            refine ⟨t, ?_, hl⟩
            simp only [consumeEvents, if_neg hm, if_neg hp, if_neg hpub, if_neg hins,
              List.map_cons, List.cons_append]
            exact congrArg (List.cons (eventResumeToken e)) ht

/-- Key lookup commutes with marshalling a document field list. -/
theorem jsonGet_marshalDoc : ∀ (d : List (String × Bson)) (k : String),
    jsonGet (marshalDoc d) k = (bsonGet d k).map marshalValue
  | [], _ => rfl
  | (k1, v) :: rest, k => by
    by_cases h : k1 = k
    · simp [marshalDoc, jsonGet, bsonGet, h]
    · simp [marshalDoc, jsonGet, bsonGet, h, jsonGet_marshalDoc rest k]

/-- Two-step string lookup commutes with marshalling: the serialised body
holds the same string at a path as the original BSON document. -/
theorem jsonLookup2_marshal (e : BsonDoc) (k1 k2 : String) :
    jsonLookup2 (Json.obj (marshalDoc e)) k1 k2 = bsonLookup2 e k1 k2 := by
  show (match jsonGet (marshalDoc e) k1 with
    | some (Json.obj d2) =>
      match jsonGet d2 k2 with
      | some (Json.str s) => some s
      | _ => none
    | _ => none) = bsonLookup2 e k1 k2
  unfold bsonLookup2
  rw [jsonGet_marshalDoc]
  cases bsonGet e k1 with
  | none => rfl
  | some v =>
    cases v with
    | str s => rfl
    | int n => rfl
    | doc d =>
      simp only [Option.map_some', marshalValue]
      rw [jsonGet_marshalDoc]
      cases bsonGet d k2 with
      | none => rfl
      | some w => cases w <;> rfl

/-- Membership after inserting into a descending list. -/
theorem mem_insertDescById (r a : TokenRecord) :
    ∀ l : List TokenRecord, a ∈ insertDescById r l ↔ a = r ∨ a ∈ l
  | [] => by simp [insertDescById]
  | x :: xs => by
    by_cases h : x.id ≤ r.id
    · simp [insertDescById, h]
    · simp only [insertDescById, if_neg h, List.mem_cons, mem_insertDescById r a xs]
      tauto

/-- Inserting preserves the descending order. -/
theorem sortedDescById_insert (r : TokenRecord) :
    ∀ l : List TokenRecord, SortedDescById l → SortedDescById (insertDescById r l)
  | [], _ => by simp [insertDescById, SortedDescById]
  | x :: xs, h => by
    rcases List.pairwise_cons.mp h with ⟨hx, hxs⟩
    by_cases hle : x.id ≤ r.id
    · simp only [insertDescById, if_pos hle]
      exact List.pairwise_cons.mpr ⟨fun b hb => by
        rcases List.mem_cons.mp hb with rfl | hb
        · exact hle
        · exact le_trans (hx b hb) hle, h⟩
    · simp only [insertDescById, if_neg hle]
      refine List.pairwise_cons.mpr ⟨fun b hb => ?_, sortedDescById_insert r xs hxs⟩
      rcases (mem_insertDescById r b xs).mp hb with rfl | hb
      · omega
      · exact hx b hb

/-- The id-descending sort produces a descending list. -/
theorem sortedDescById_sort : ∀ l : List TokenRecord, SortedDescById (sortDescById l)
  | [] => List.Pairwise.nil
  | x :: xs => sortedDescById_insert x _ (sortedDescById_sort xs)

/-- Sorting preserves membership. -/
theorem mem_sortDescById (a : TokenRecord) :
    ∀ l : List TokenRecord, a ∈ sortDescById l ↔ a ∈ l
  | [] => Iff.rfl
  | x :: xs => by
    simp [sortDescById, mem_insertDescById, mem_sortDescById a xs]

/-- On a non-empty collection, `FindOne` under id-descending sort returns
a stored record of maximal id. -/
theorem findOneSorted_idDesc_max (coll : List TokenRecord) (hne : coll ≠ []) :
    ∃ m, findOneSorted SortOrder.idDesc coll = some m ∧ m ∈ coll ∧
      ∀ x ∈ coll, x.id ≤ m.id := by
  have hs := sortedDescById_sort coll
  cases hsort : sortDescById coll with
  | nil =>
    cases coll with
    | nil => exact absurd rfl hne
    | cons c cs =>
      have hc : c ∈ sortDescById (c :: cs) := (mem_sortDescById c _).mpr (by simp)
      rw [hsort] at hc
      cases hc
  | cons m ms =>
    refine ⟨m, ?_, ?_, ?_⟩
    · simp [findOneSorted, sortRecords, hsort]
    · exact (mem_sortDescById m coll).mp (by rw [hsort]; simp)
    · intro x hx
      have hx' : x ∈ sortDescById coll := (mem_sortDescById x coll).mpr hx
      rw [hsort] at hx'
      rcases List.mem_cons.mp hx' with rfl | hx'
      · exact le_refl _
      · rw [hsort] at hs
        exact (List.pairwise_cons.mp hs).1 x hx'

/-- When every scripted fetch succeeds (in particular when the cursor
collection is merely empty), no run returns the fetch error: absence of a
resume record is not an error. -/
theorem watchCollection_fetch_error_only_on_failed_fetch (capped : Bool) (s : String) :
    ∀ (scripts : List IterationScript) (st : LoopState),
      (∀ it ∈ scripts, it.fetchOk = true) →
      (watchCollection capped s scripts st).1 ≠ RunResult.err GoError.fetchResumeTokenFailed
  | [], st, _ => by simp [watchCollection]
  | it :: rest, st, hall => by
    have hf : it.fetchOk = true := hall it (by simp)
    have hf' : ¬ it.fetchOk = false := by simp [hf]
    simp only [watchCollection, if_neg hf']
    by_cases hw : it.watchOk = false
    · simp [if_pos hw]
    · simp only [if_neg hw]
      by_cases hmf : (consumeEvents s it.events).exit = InnerExit.marshalFatal
      · simp [if_pos hmf]
      · simp only [if_neg hmf]
        by_cases hcl : it.closeOk = false
        · simp [if_pos hcl]
        · simp only [if_neg hcl]
          by_cases hinv : (consumeEvents s it.events).exit = InnerExit.invalidated
          · simp [if_pos hinv]
          · simp only [if_neg hinv]
            exact watchCollection_fetch_error_only_on_failed_fetch capped s rest _
              (fun x hx => hall x (by simp [hx]))

/-- An uppercased non-empty string is non-empty. -/
theorem goToUpper_ne_empty {s : String} (h : s ≠ "") : goToUpper s ≠ "" := by
  intro habs
  apply h
  have hdata := congrArg String.data habs
  simp only [goToUpper] at hdata
  cases s with
  | mk data =>
    cases data with
    | nil => rfl
    | cons a as => simp at hdata

/-- When every field is already present, the default pass is the
identity. -/
theorem setCollDefaults_no_op (c : CollectionCfg)
    (h1 : c.changeStreamPreAndPostImages ≠ none) (h2 : c.tokensDbName ≠ "")
    (h3 : c.tokensCollName ≠ "") (h4 : c.tokensCollCapped ≠ none)
    (h5 : c.tokensCollSizeInBytes ≠ none) (h6 : c.streamName ≠ "") :
    setCollDefaults c = c := by
  cases c
  simp_all [setCollDefaults]

/-- After one default pass the names are unchanged and every defaulted
field is present. -/
theorem setCollDefaults_fields (c : CollectionCfg) :
    (setCollDefaults c).dbName = c.dbName ∧
    (setCollDefaults c).collName = c.collName ∧
    (setCollDefaults c).changeStreamPreAndPostImages ≠ none ∧
    (setCollDefaults c).tokensDbName ≠ "" ∧
    (c.collName ≠ "" → (setCollDefaults c).tokensCollName ≠ "") ∧
    (setCollDefaults c).tokensCollCapped ≠ none ∧
    (setCollDefaults c).tokensCollSizeInBytes ≠ none ∧
    (c.collName ≠ "" → (setCollDefaults c).streamName ≠ "") := by
  refine ⟨rfl, rfl, ?_, ?_, ?_, ?_, ?_, ?_⟩
  · by_cases h : c.changeStreamPreAndPostImages = none <;> simp [setCollDefaults, h]
  · by_cases h : c.tokensDbName = "" <;> simp [setCollDefaults, h]
  · intro hc
    by_cases h : c.tokensCollName = "" <;> simp [setCollDefaults, h, hc]
  · by_cases h : c.tokensCollCapped = none <;> simp [setCollDefaults, h]
  · by_cases h : c.tokensCollSizeInBytes = none <;> simp [setCollDefaults, h]
  · intro hc
    by_cases h : c.streamName = "" <;>
      simp [setCollDefaults, h, goToUpper_ne_empty hc]

/-- A collection the loop body accepted is returned unchanged by a second
run of the body. -/
theorem processColl_fst_idem (c c1 : CollectionCfg)
    (h : processColl c = (c1, none)) : (processColl c1).1 = c1 := by
  have hd : ¬ c.dbName = "" := by
    intro hd
    simp [processColl, hd] at h
  have hc : ¬ c.collName = "" := by
    intro hc
    simp [processColl, hc, hd] at h
  have heqf : ¬ (equalFold c.dbName c.tokensDbName &&
      equalFold c.collName c.tokensCollName) = true := by
    intro heq
    simp [processColl, hd, hc, heq] at h
  have hc1 : c1 = setCollDefaults c := by
    simp [processColl, hd, hc, heqf] at h
    exact h.symm
  obtain ⟨hf1, hf2, hf3, hf4, hf5, hf6, hf7, hf8⟩ := setCollDefaults_fields c
  subst hc1
  unfold processColl
  rw [if_neg (by rw [hf1]; exact hd), if_neg (by rw [hf2]; exact hc)]
  by_cases heq2 : (equalFold (setCollDefaults c).dbName (setCollDefaults c).tokensDbName &&
      equalFold (setCollDefaults c).collName (setCollDefaults c).tokensCollName) = true
  · rw [if_pos heq2]
  · rw [if_neg heq2]
    exact setCollDefaults_no_op _ hf3 hf4 (hf5 hc) hf6 hf7 (hf8 hc)

/-- A collection list the loop accepted is returned unchanged by a second
run of the loop. -/
theorem processColls_fst_idem :
    ∀ (cs cs1 : List CollectionCfg), processColls cs = (cs1, none) →
      (processColls cs1).1 = cs1
  | [], cs1, h => by
    simp only [processColls, Prod.mk.injEq] at h
    rw [← h.1]
    rfl
  | c :: cs, cs1, h => by
    cases hp : processColl c with
    | mk c1 e =>
      cases e with
      | some e0 =>
        rw [processColls, hp] at h
        simp at h
      | none =>
        rw [processColls, hp] at h
        simp only [Prod.mk.injEq] at h
        obtain ⟨hcs1, hr2⟩ := h
        have hfst := processColl_fst_idem c c1 hp
        have hih := processColls_fst_idem cs (processColls cs).1
          (by rw [← hr2])
        rw [← hcs1, processColls]
        cases hp1 : processColl c1 with
        | mk c2 e2 =>
          have hc2 : c2 = c1 := by rw [← hfst, hp1]
          cases e2 with
          | some e3 => simp [hc2]
          | none => simp [hc2, hih]

/-- Any option list holding a non-positive capped size makes the option
loop fail. -/
theorem applyCollectionOptions_error_of_bad :
    ∀ (c : Collection) (opts : List CollectionOption) (n : Int),
      CollectionOption.withTokensCollCapped n ∈ opts → n ≤ 0 →
      ∃ e, applyCollectionOptions c opts = Except.error e
  | c, opt :: rest, n, hmem, hn => by
    rcases List.mem_cons.mp hmem with heq | hmem
    · subst heq
      exact ⟨ConnErr.errInvalidCollSizeInBytes,
        by simp [applyCollectionOptions, applyCollectionOption, if_pos hn]⟩
    · cases happ : applyCollectionOption c opt with
      | error e => exact ⟨e, by simp [applyCollectionOptions, happ]⟩
      | ok c1 =>
        obtain ⟨e, he⟩ := applyCollectionOptions_error_of_bad c1 rest n hmem hn
        exact ⟨e, by simp [applyCollectionOptions, happ, he]⟩

/-- A failing option loop always holds a non-positive capped size: no
other collection option can fail. -/
theorem applyCollectionOptions_bad_of_error :
    ∀ (c : Collection) (opts : List CollectionOption) (e : ConnErr),
      applyCollectionOptions c opts = Except.error e →
      ∃ n, CollectionOption.withTokensCollCapped n ∈ opts ∧ n ≤ 0
  | c, [], e, h => by simp [applyCollectionOptions] at h
  | c, opt :: rest, e, h => by
    cases happ : applyCollectionOption c opt with
    | error e1 =>
      cases opt with
      | withTokensCollCapped n =>
        by_cases hn : n ≤ 0
        · exact ⟨n, by simp, hn⟩
        · simp [applyCollectionOption, if_neg hn] at happ
      | withChangeStreamPreAndPostImages => simp [applyCollectionOption] at happ
      | withTokensDbName s => simp [applyCollectionOption] at happ
      | withTokensCollName s => simp [applyCollectionOption] at happ
      | withStreamName s => simp [applyCollectionOption] at happ
    | ok c1 =>
      rw [applyCollectionOptions, happ] at h
      obtain ⟨n, hmem, hn⟩ := applyCollectionOptions_bad_of_error c1 rest e h
      exact ⟨n, by simp [hmem], hn⟩

/-- Enabling pre/post images never changes any capped flag or size. -/
theorem setPrePostImages_frame (st : DbState) (name : String) :
    (setPrePostImages st name).map (fun p => (p.1, p.2.capped, p.2.sizeInBytes)) =
      st.map (fun p => (p.1, p.2.capped, p.2.sizeInBytes)) := by
  induction st with
  | nil => rfl
  | cons p rest ih =>
    by_cases h : p.1 = name <;> simp [setPrePostImages, h] at ih ⊢ <;> exact ih

/-! ## The claims -/

/-- Claim C1: in the replication loop, a resume-token record is appended
to the cursor collection only after the publish handler for that same
event returned success.  First conjunct: in every inner-loop run the
inserted token values are a front segment of the ids of the successfully
published messages, so every committed cursor record has a successfully
published message whose identifier equals the value of the record.
Second conjunct: when the publish of a publishable event fails, the inner
loop breaks at once, committing nothing for that event and processing no
further events. -/
theorem watchCollection_commit_only_after_publish
    (s : String) (evs : List (BsonDoc × StepOutcome))
    (e : BsonDoc) (o : StepOutcome) (rest : List (BsonDoc × StepOutcome))
    (hm : o.marshalOk = true)
    (hp : isPublishable (eventOperationType e) = true)
    (hpf : o.publishOk = false) :
    (∃ t, (consumeEvents s evs).newTokenValues ++ t =
        (consumeEvents s evs).newPublished.map Msg.msgId) ∧
    consumeEvents s ((e, o) :: rest) = ⟨[], [], InnerExit.publishFailed⟩ := by
  constructor
  · obtain ⟨t, ht, _⟩ := consumeEvents_tokens_published s evs
    exact ⟨t, ht⟩
  · have hm' : ¬ o.marshalOk = false := by simp [hm]
    have hp' : ¬ isPublishable (eventOperationType e) = false := by simp [hp]
    simp only [consumeEvents, if_neg hm', if_neg hp', if_pos hpf]

/-- Witness for claim C1 at a concrete insert event whose publish fails. -/
theorem watchCollection_commit_only_after_publish_witness :
    (∃ t, (consumeEvents "COLL1" []).newTokenValues ++ t =
        (consumeEvents "COLL1" []).newPublished.map Msg.msgId) ∧
    consumeEvents "COLL1"
        [([("_id", Bson.doc [("_data", Bson.str "tokA")]),
           ("operationType", Bson.str "insert")], ⟨true, false, true⟩)] =
      ⟨[], [], InnerExit.publishFailed⟩ :=
  watchCollection_commit_only_after_publish "COLL1" [] _ _ [] rfl rfl rfl

/-- Claim C2: when the publish of an event succeeds but the insert of its
resume token fails, the inner loop breaks having published that event
exactly once (no re-publish in the iteration) and committed nothing;
across any inner run the published messages exceed the committed tokens
by at most one, so each such failure leaks at most one duplicate; and the
message identifier is a function of the event alone (the resume token),
so a re-delivery of the same event carries the same identifier. -/
theorem watchCollection_commit_failure_duplicates
    (s : String) (e : BsonDoc) (o : StepOutcome) (rest : List (BsonDoc × StepOutcome))
    (hm : o.marshalOk = true) (hp : isPublishable (eventOperationType e) = true)
    (hpub : o.publishOk = true) (hins : o.insertOk = false) :
    consumeEvents s ((e, o) :: rest) = ⟨[mkMsg s e], [], InnerExit.insertFailed⟩ ∧
    (∀ evs, (consumeEvents s evs).newPublished.length ≤
        (consumeEvents s evs).newTokenValues.length + 1) ∧
    (mkMsg s e).msgId = eventResumeToken e := by
  refine ⟨?_, ?_, rfl⟩
  · have hm' : ¬ o.marshalOk = false := by simp [hm]
    have hp' : ¬ isPublishable (eventOperationType e) = false := by simp [hp]
    have hpub' : ¬ o.publishOk = false := by simp [hpub]
    simp only [consumeEvents, if_neg hm', if_neg hp', if_neg hpub', if_pos hins]
  · intro evs
    obtain ⟨t, ht, hl⟩ := consumeEvents_tokens_published s evs
    have hlen := congrArg List.length ht
    simp only [List.length_append, List.length_map] at hlen
    omega

/-- Witness for claim C2 at a concrete update event whose insert fails. -/
theorem watchCollection_commit_failure_duplicates_witness :
    consumeEvents "COLL1"
        [([("_id", Bson.doc [("_data", Bson.str "tokB")]),
           ("operationType", Bson.str "update")], ⟨true, true, false⟩)] =
      ⟨[mkMsg "COLL1" [("_id", Bson.doc [("_data", Bson.str "tokB")]),
           ("operationType", Bson.str "update")]], [], InnerExit.insertFailed⟩ ∧
    (∀ evs, (consumeEvents "COLL1" evs).newPublished.length ≤
        (consumeEvents "COLL1" evs).newTokenValues.length + 1) ∧
    (mkMsg "COLL1" [("_id", Bson.doc [("_data", Bson.str "tokB")]),
        ("operationType", Bson.str "update")]).msgId =
      eventResumeToken [("_id", Bson.doc [("_data", Bson.str "tokB")]),
        ("operationType", Bson.str "update")] :=
  watchCollection_commit_failure_duplicates "COLL1" _ _ [] rfl rfl rfl rfl

/-- Claim C3: READ-CURSOR selects the latest resume record by natural
order descending for a capped cursor collection (the last inserted
record) and by id descending for an uncapped one (a record of maximal
id); an empty cursor collection is not an error and yields no
resume-after point; any other fetch or decode failure makes
`WatchCollection` return an error. -/
theorem watchCollection_read_cursor (capped : Bool) (s : String)
    (tokens : List TokenRecord) :
    findOneSorted (sortFor true) tokens = tokens.getLast? ∧
    (tokens ≠ [] → ∃ m, findOneSorted (sortFor false) tokens = some m ∧
        m ∈ tokens ∧ ∀ x ∈ tokens, x.id ≤ m.id) ∧
    resumeAfterFor capped [] = none ∧
    (∀ (scripts : List IterationScript) (st : LoopState),
        (∀ it ∈ scripts, it.fetchOk = true) →
        (watchCollection capped s scripts st).1 ≠
          RunResult.err GoError.fetchResumeTokenFailed) ∧
    (∀ (it : IterationScript) (rest : List IterationScript) (st : LoopState),
        it.fetchOk = false →
        watchCollection capped s (it :: rest) st =
          (RunResult.err GoError.fetchResumeTokenFailed, st)) := by
  refine ⟨?_, fun hne => findOneSorted_idDesc_max tokens hne, ?_, ?_, ?_⟩
  · simp [findOneSorted, sortFor, sortRecords, List.head?_reverse]
  · cases capped <;> rfl
  · exact watchCollection_fetch_error_only_on_failed_fetch capped s
  · intro it rest st hf2
    simp only [watchCollection, if_pos hf2]

/-- Witness for claim C3: the maximal-id selection on a two-record
collection, and a failing fetch ending a concrete run with the fetch
error. -/
theorem watchCollection_read_cursor_witness :
    (∃ m, findOneSorted (sortFor false) [⟨0, "a"⟩, ⟨1, "b"⟩] = some m ∧
        m ∈ ([⟨0, "a"⟩, ⟨1, "b"⟩] : List TokenRecord) ∧
        ∀ x ∈ ([⟨0, "a"⟩, ⟨1, "b"⟩] : List TokenRecord), x.id ≤ m.id) ∧
    watchCollection true "COLL1" [⟨false, true, [], true⟩] ⟨[], 0, [], []⟩ =
      (RunResult.err GoError.fetchResumeTokenFailed, ⟨[], 0, [], []⟩) :=
  ⟨(watchCollection_read_cursor true "COLL1" [⟨0, "a"⟩, ⟨1, "b"⟩]).2.1 (by simp),
   (watchCollection_read_cursor true "COLL1" []).2.2.2.2 _ [] _ rfl⟩

/-- Counterexample to claim C4 as stated.  The run below models a context
cancelled right after the first iteration: the change stream delivers no
events and `cs.Next` returns false (first iteration, empty event list),
the stream closes, and `resume` is still true, so the loop re-enters
READ-CURSOR; there the `FindOne` on the cancelled context fails with an
error other than `ErrNoDocuments` (second iteration, failed fetch, no
events) and `WatchCollection` returns that error.  The claim says a
cancelled context makes the run return success and that the outer
iteration does not repeat once the context is cancelled; the code instead
repeats the iteration and returns an error. -/
theorem watchCollection_cancelled_context_errors :
    (watchCollection false "COLL1"
        [⟨true, true, [], true⟩, ⟨false, true, [], true⟩] ⟨[], 0, [], []⟩).1 =
      RunResult.err GoError.fetchResumeTokenFailed := rfl

/-- Claim C4 as amended: the outer loop condition consults only the
`resume` flag, never the context.  After an iteration whose driver calls
succeed, an invalidate exit returns nil, and any other inner exit repeats
the outer iteration regardless of context state; a cancelled context
shows up only as the next failed cursor fetch, which makes
`WatchCollection` return an error rather than success. -/
theorem watchCollection_outer_loop_continuation
    (capped : Bool) (s : String) (it : IterationScript) (rest : List IterationScript)
    (st : LoopState) (hf : it.fetchOk = true) (hw : it.watchOk = true)
    (hc : it.closeOk = true) :
    ((consumeEvents s it.events).exit = InnerExit.invalidated →
        watchCollection capped s (it :: rest) st =
          (RunResult.ok, iterState capped s it st)) ∧
    ((consumeEvents s it.events).exit = InnerExit.drained ∨
     (consumeEvents s it.events).exit = InnerExit.publishFailed ∨
     (consumeEvents s it.events).exit = InnerExit.insertFailed →
        watchCollection capped s (it :: rest) st =
          watchCollection capped s rest (iterState capped s it st)) ∧
    (∀ (it2 : IterationScript) (rest2 : List IterationScript) (st2 : LoopState),
        it2.fetchOk = false →
        watchCollection capped s (it2 :: rest2) st2 =
          (RunResult.err GoError.fetchResumeTokenFailed, st2)) := by
  have hf' : ¬ it.fetchOk = false := by simp [hf]
  have hw' : ¬ it.watchOk = false := by simp [hw]
  have hc' : ¬ it.closeOk = false := by simp [hc]
  refine ⟨?_, ?_, ?_⟩
  · intro hx
    simp only [watchCollection, if_neg hf', if_neg hw', hx, if_neg hc']
    simp
  · intro hx
    rcases hx with hx | hx | hx <;>
      simp only [watchCollection, if_neg hf', if_neg hw', hx, if_neg hc'] <;> simp
  · intro it2 rest2 st2 hf2
    simp only [watchCollection, if_pos hf2]

/-- Witness for the amended claim C4: a drained iteration repeats the
loop, and a failed fetch returns the fetch error. -/
theorem watchCollection_outer_loop_continuation_witness :
    watchCollection false "COLL1" [⟨true, true, [], true⟩] ⟨[], 0, [], []⟩ =
      watchCollection false "COLL1" []
        (iterState false "COLL1" ⟨true, true, [], true⟩ ⟨[], 0, [], []⟩) ∧
    watchCollection false "COLL1" [⟨false, true, [], true⟩] ⟨[], 0, [], []⟩ =
      (RunResult.err GoError.fetchResumeTokenFailed, ⟨[], 0, [], []⟩) :=
  ⟨(watchCollection_outer_loop_continuation false "COLL1"
      ⟨true, true, [], true⟩ [] ⟨[], 0, [], []⟩ rfl rfl rfl).2.1 (Or.inl rfl),
   (watchCollection_outer_loop_continuation false "COLL1"
      ⟨true, true, [], true⟩ [] ⟨[], 0, [], []⟩ rfl rfl rfl).2.2 _ [] _ rfl⟩

/-- Claim C5: a change event whose operation is not publishable yields no
message and no committed token.  A non-invalidate such event is skipped
and consumption continues (the run equals the run on the remaining
events); an invalidate event ends the inner loop with the invalidated
exit, after which `WatchCollection` returns nil; and a nil task result
does not cancel the error group, so only this binding stops. -/
theorem watchCollection_non_publishable_skipped
    (s : String) (e : BsonDoc) (o : StepOutcome) (rest : List (BsonDoc × StepOutcome))
    (hm : o.marshalOk = true)
    (hp : isPublishable (eventOperationType e) = false) :
    (eventOperationType e ≠ "invalidate" →
        consumeEvents s ((e, o) :: rest) = consumeEvents s rest) ∧
    (eventOperationType e = "invalidate" →
        consumeEvents s ((e, o) :: rest) = ⟨[], [], InnerExit.invalidated⟩) ∧
    (∀ (capped : Bool) (it : IterationScript) (scripts : List IterationScript)
        (st : LoopState), it.fetchOk = true → it.watchOk = true → it.closeOk = true →
        (consumeEvents s it.events).exit = InnerExit.invalidated →
        watchCollection capped s (it :: scripts) st =
          (RunResult.ok, iterState capped s it st)) ∧
    (∀ others : List RunResult,
        groupCancelled (RunResult.ok :: others) = groupCancelled others) := by
  have hm' : ¬ o.marshalOk = false := by simp [hm]
  refine ⟨?_, ?_, ?_, ?_⟩
  · intro hi
    simp only [consumeEvents, if_neg hm', if_pos hp, if_neg hi]
  · intro hi
    simp only [consumeEvents, if_neg hm', if_pos hp, if_pos hi]
  · intro capped it scripts st hf hw hc hx
    have hf' : ¬ it.fetchOk = false := by simp [hf]
    have hw' : ¬ it.watchOk = false := by simp [hw]
    have hc' : ¬ it.closeOk = false := by simp [hc]
    simp only [watchCollection, if_neg hf', if_neg hw', hx, if_neg hc']
    simp
  · intro others
    simp [groupCancelled]

/-- Witness for claim C5 at a concrete drop event and a concrete
invalidate event. -/
theorem watchCollection_non_publishable_skipped_witness :
    consumeEvents "COLL1" [(sampleDropEvent, ⟨true, true, true⟩)] =
      consumeEvents "COLL1" [] ∧
    consumeEvents "COLL1" [(sampleInvalidateEvent, ⟨true, true, true⟩)] =
      ⟨[], [], InnerExit.invalidated⟩ ∧
    watchCollection false "COLL1"
        [⟨true, true, [(sampleInvalidateEvent, ⟨true, true, true⟩)], true⟩]
        ⟨[], 0, [], []⟩ =
      (RunResult.ok, iterState false "COLL1"
        ⟨true, true, [(sampleInvalidateEvent, ⟨true, true, true⟩)], true⟩
        ⟨[], 0, [], []⟩) ∧
    groupCancelled [RunResult.ok, RunResult.running] =
      groupCancelled [RunResult.running] :=
  ⟨(watchCollection_non_publishable_skipped "COLL1" sampleDropEvent
      ⟨true, true, true⟩ [] rfl rfl).1 (by decide),
   (watchCollection_non_publishable_skipped "COLL1" sampleInvalidateEvent
      ⟨true, true, true⟩ [] rfl rfl).2.1 rfl,
   (watchCollection_non_publishable_skipped "COLL1" sampleInvalidateEvent
      ⟨true, true, true⟩ [] rfl rfl).2.2.1 false
      ⟨true, true, [(sampleInvalidateEvent, ⟨true, true, true⟩)], true⟩ []
      ⟨[], 0, [], []⟩ rfl rfl rfl rfl,
   (watchCollection_non_publishable_skipped "COLL1" sampleDropEvent
      ⟨true, true, true⟩ [] rfl rfl).2.2.2 [RunResult.running]⟩

/-- Claim C6: a publishable event whose publish succeeds contributes
exactly one message to the run: the message built for it, whose subject
is the stream name, a dot and the operation type, whose identifier is the
resume token of the event (the string at path `_id._data`), and whose
serialised body holds that same token at the nested path `_id._data`. -/
theorem watchCollection_published_message_shape
    (s tok : String) (e : BsonDoc) (o : StepOutcome) (rest : List (BsonDoc × StepOutcome))
    (hm : o.marshalOk = true) (hp : isPublishable (eventOperationType e) = true)
    (hpub : o.publishOk = true)
    (htok : bsonLookup2 e "_id" "_data" = some tok) :
    (consumeEvents s ((e, o) :: rest)).newPublished =
      mkMsg s e :: (if o.insertOk then (consumeEvents s rest).newPublished else []) ∧
    (mkMsg s e).subj = s ++ "." ++ eventOperationType e ∧
    (mkMsg s e).msgId = tok ∧
    jsonLookup2 (mkMsg s e).body "_id" "_data" = some tok := by
  refine ⟨?_, rfl, ?_, ?_⟩
  · have hm' : ¬ o.marshalOk = false := by simp [hm]
    have hp' : ¬ isPublishable (eventOperationType e) = false := by simp [hp]
    have hpub' : ¬ o.publishOk = false := by simp [hpub]
    by_cases hins : o.insertOk = false
    · simp only [consumeEvents, if_neg hm', if_neg hp', if_neg hpub', if_pos hins, hins]
      simp
    · have hins' : o.insertOk = true := by revert hins; cases o.insertOk <;> simp
      simp only [consumeEvents, if_neg hm', if_neg hp', if_neg hpub', if_neg hins, hins']
      simp
  · simp [mkMsg, eventResumeToken, htok]
  · show jsonLookup2 (Json.obj (marshalDoc e)) "_id" "_data" = some tok
    rw [jsonLookup2_marshal, htok]

/-- Witness for claim C6 at a concrete insert event carrying the resume
token tokC. -/
theorem watchCollection_published_message_shape_witness :
    (consumeEvents "COLL1" [(sampleInsertEvent "tokC", ⟨true, true, true⟩)]).newPublished =
      mkMsg "COLL1" (sampleInsertEvent "tokC") ::
        (if (⟨true, true, true⟩ : StepOutcome).insertOk then
          (consumeEvents "COLL1" []).newPublished else []) ∧
    (mkMsg "COLL1" (sampleInsertEvent "tokC")).subj =
      "COLL1" ++ "." ++ eventOperationType (sampleInsertEvent "tokC") ∧
    (mkMsg "COLL1" (sampleInsertEvent "tokC")).msgId = "tokC" ∧
    jsonLookup2 (mkMsg "COLL1" (sampleInsertEvent "tokC")).body "_id" "_data" =
      some "tokC" :=
  watchCollection_published_message_shape "COLL1" "tokC" _ _ [] rfl rfl rfl rfl

/-- Claim C7: `WithCollection` fails exactly when the database name is
empty, the collection name is empty, some `WithTokensCollCapped` option
carries a non-positive size, or the finished configuration has
`(dbName, collName)` equal to `(tokensDbName, tokensCollName)` under
case-insensitive comparison; a collection satisfying none of these is
accepted. -/
theorem withCollection_validation (dbName collName : String)
    (opts : List CollectionOption) :
    (∃ e, withCollection dbName collName opts = Except.error e) ↔
      (dbName = "" ∨ collName = "" ∨
        (∃ n, CollectionOption.withTokensCollCapped n ∈ opts ∧ n ≤ 0) ∨
        (∃ c, applyCollectionOptions (initialCollection dbName collName) opts =
            Except.ok c ∧
          (equalFold c.dbName c.tokensDbName &&
            equalFold c.collName c.tokensCollName) = true)) := by
  by_cases hd : dbName = ""
  · simp [withCollection, hd]
  · by_cases hc : collName = ""
    · simp [withCollection, hd, hc]
    · simp only [withCollection, if_neg hd, if_neg hc]
      cases happ : applyCollectionOptions (initialCollection dbName collName) opts with
      | error e =>
        have hbad := applyCollectionOptions_bad_of_error _ _ _ happ
        constructor
        · intro _
          exact Or.inr (Or.inr (Or.inl hbad))
        · intro _
          exact ⟨e, rfl⟩
      | ok c =>
        by_cases heq : (equalFold c.dbName c.tokensDbName &&
            equalFold c.collName c.tokensCollName) = true
        · simp only [if_pos heq]
          constructor
          · intro _
            exact Or.inr (Or.inr (Or.inr ⟨c, rfl, heq⟩))
          · intro _
            exact ⟨ConnErr.errInvalidDbAndCollNames, rfl⟩
        · simp only [if_neg heq]
          constructor
          · rintro ⟨e, he⟩
            cases he
          · rintro (h | h | ⟨n, hmem, hn⟩ | ⟨c1, hc1, heq1⟩)
            · exact absurd h hd
            · exact absurd h hc
            · obtain ⟨e, he⟩ :=
                applyCollectionOptions_error_of_bad
                  (initialCollection dbName collName) opts n hmem hn
              rw [happ] at he
              cases he
            · injection hc1 with h2
              subst h2
              exact absurd heq1 heq

/-- Claim C8: on a configuration the validation pass accepts, running
`validateAndSetDefaults` a second time (with the same environment) leaves
the configuration tree unchanged: every default only fills an absent
field, and after one successful pass no defaulted field is absent. -/
theorem validateAndSetDefaults_idempotent (env : Env) (cfg : Config)
    (h : (validateAndSetDefaults env cfg).2 = none) :
    (validateAndSetDefaults env (validateAndSetDefaults env cfg).1).1 =
      (validateAndSetDefaults env cfg).1 := by
  obtain ⟨l, m, n, a⟩ := env
  obtain ⟨ll, mu, nu, sa, colls⟩ := cfg
  simp only [validateAndSetDefaults, applyEnvOverrides] at h ⊢
  have hsplit : processColls colls = ((processColls colls).1, none) :=
    Prod.ext rfl h
  rw [Config.mk.injEq]
  refine ⟨?_, ?_, ?_, ?_, processColls_fst_idem _ _ hsplit⟩
  · cases l <;> rfl
  · cases m <;> rfl
  · cases n <;> rfl
  · cases a <;> rfl

/-- Witness for claim C8 on a one-collection configuration with only the
log-level environment variable set. -/
theorem validateAndSetDefaults_idempotent_witness :
    (validateAndSetDefaults ⟨some "debug", none, none, none⟩
        ⟨"info", "", "", "", [⟨"db", "c1", none, "", "", none, none, ""⟩]⟩).2 = none ∧
    (validateAndSetDefaults ⟨some "debug", none, none, none⟩
        (validateAndSetDefaults ⟨some "debug", none, none, none⟩
          ⟨"info", "", "", "", [⟨"db", "c1", none, "", "", none, none, ""⟩]⟩).1).1 =
      (validateAndSetDefaults ⟨some "debug", none, none, none⟩
        ⟨"info", "", "", "", [⟨"db", "c1", none, "", "", none, none, ""⟩]⟩).1 :=
  ⟨rfl, validateAndSetDefaults_idempotent _ _ rfl⟩

/-- Claim C9: when pre/post-images are requested and the `collMod`
command fails (and the call gets past listing, the collection existing or
its creation succeeding), `CreateCollection` still returns success: the
command was issued, its failure is only logged. -/
theorem createCollection_prepost_best_effort
    (oc : CreateOutcomes) (opts : CreateCollectionOptions) (st : DbState)
    (hl : oc.listOk = true) (hpp : opts.changeStreamPreAndPostImages = true)
    (hcm : oc.collModOk = false)
    (hcr : (listCollectionNames st opts.collName).isEmpty = false ∨
        oc.createOk = true) :
    (createCollection oc opts st).2.2 = Except.ok () ∧
    MongoCmd.collMod opts.collName ∈ (createCollection oc opts st).2.1 := by
  have hl' : ¬ oc.listOk = false := by simp [hl]
  have hpp' : ¬ opts.changeStreamPreAndPostImages = false := by simp [hpp]
  by_cases hex : (listCollectionNames st opts.collName).isEmpty = true
  · have hcr' : oc.createOk = true := by
      rcases hcr with hcr | hcr
      · rw [hex] at hcr; cases hcr
      · exact hcr
    have hcr'' : ¬ oc.createOk = false := by simp [hcr']
    simp only [createCollection, if_neg hl', if_pos hex, if_neg hcr'',
      runCollModStep, if_neg hpp', hcm]
    simp
  · simp only [createCollection, if_neg hl', if_neg hex,
      runCollModStep, if_neg hpp', hcm]
    simp

/-- Witness for claim C9 on an existing collection with a failing
`collMod`. -/
theorem createCollection_prepost_best_effort_witness :
    (createCollection ⟨true, true, false⟩ ⟨"db", "c1", false, 0, true⟩
        [("c1", ⟨false, 0, false⟩)]).2.2 = Except.ok () ∧
    MongoCmd.collMod "c1" ∈ (createCollection ⟨true, true, false⟩
        ⟨"db", "c1", false, 0, true⟩ [("c1", ⟨false, 0, false⟩)]).2.1 :=
  createCollection_prepost_best_effort _ _ _ rfl rfl rfl (Or.inl rfl)

/-- Claim C10: when a collection with the requested name already exists
and listing succeeds, no create command is issued and the capped flag and
size of every stored collection are unchanged, whatever capped or size
parameters the call requested; when pre/post-image enabling is not
requested the call returns success having performed no mutation at
all. -/
theorem createCollection_existing_collection_frame
    (oc : CreateOutcomes) (opts : CreateCollectionOptions) (st : DbState)
    (hl : oc.listOk = true)
    (hex : (listCollectionNames st opts.collName).isEmpty = false) :
    (∀ (n : String) (b : Bool) (z : Int),
        MongoCmd.create n b z ∉ (createCollection oc opts st).2.1) ∧
    (createCollection oc opts st).1.map
        (fun p => (p.1, p.2.capped, p.2.sizeInBytes)) =
      st.map (fun p => (p.1, p.2.capped, p.2.sizeInBytes)) ∧
    (opts.changeStreamPreAndPostImages = false →
      createCollection oc opts st =
        (st, [MongoCmd.listNames opts.collName], Except.ok ())) := by
  have hl' : ¬ oc.listOk = false := by simp [hl]
  have hex' : ¬ (listCollectionNames st opts.collName).isEmpty = true := by
    simp [hex]
  by_cases hpp : opts.changeStreamPreAndPostImages = false
  · simp only [createCollection, if_neg hl', if_neg hex',
      runCollModStep, if_pos hpp]
    exact ⟨fun n b z => by simp, trivial, fun _ => trivial⟩
  · by_cases hcm : oc.collModOk = true
    · simp only [createCollection, if_neg hl', if_neg hex',
        runCollModStep, if_neg hpp, hcm, if_pos]
      exact ⟨fun n b z => by simp, setPrePostImages_frame st opts.collName,
        fun hq => absurd hq hpp⟩
    · have hcm' : oc.collModOk = false := by
        revert hcm; cases oc.collModOk <;> simp
      simp only [createCollection, if_neg hl', if_neg hex',
        runCollModStep, if_neg hpp, hcm',
        if_neg (show ¬ (false = true) by simp)]
      exact ⟨fun n b z => by simp, trivial, fun hq => absurd hq hpp⟩

/-- Witness for claim C10: a call requesting capped 2048 against an
existing uncapped collection issues no create and changes nothing. -/
theorem createCollection_existing_collection_frame_witness :
    (∀ (n : String) (b : Bool) (z : Int),
        MongoCmd.create n b z ∉ (createCollection ⟨true, true, true⟩
          ⟨"db", "c1", true, 2048, false⟩ [("c1", ⟨false, 0, false⟩)]).2.1) ∧
    (createCollection ⟨true, true, true⟩ ⟨"db", "c1", true, 2048, false⟩
        [("c1", ⟨false, 0, false⟩)]).1.map
        (fun p => (p.1, p.2.capped, p.2.sizeInBytes)) =
      [("c1", (⟨false, 0, false⟩ : CollInfo))].map
        (fun p => (p.1, p.2.capped, p.2.sizeInBytes)) ∧
    createCollection ⟨true, true, true⟩ ⟨"db", "c1", true, 2048, false⟩
        [("c1", ⟨false, 0, false⟩)] =
      ([("c1", ⟨false, 0, false⟩)], [MongoCmd.listNames "c1"], Except.ok ()) := by
  have h := createCollection_existing_collection_frame ⟨true, true, true⟩
    ⟨"db", "c1", true, 2048, false⟩ [("c1", ⟨false, 0, false⟩)] rfl rfl
  exact ⟨h.1, h.2.1, h.2.2 rfl⟩
